import Mathlib

/-!
Shallow embedding of `anomalib/models/rbad/region.py` (box post-processing
pipeline of the region extractor) together with theorems checking the
specification's claims about it.

Conventions of the embedding:
* numpy / torch float tensors of box coordinates are modelled with exact
  rationals (`ℚ`); int32 tensors with `ℤ` (no claim exercises wrap-around);
* a frame size is the pair `(height, width)`, exactly as in the source;
* a box is `(x1, y1, x2, y2)`, exactly as in the source;
* IEEE division by zero (which yields `inf`/`nan` in numpy, not an
  exception) is modelled with `Option`: `none` stands for a non-finite
  stride and propagates through `floor` and the int cast, as `nan` does;
* in-place mutation (`Tensor.round_`) is modelled by state passing: the
  function additionally returns the content of the caller's tensor after
  the call;
* Python exceptions (`raise`, failing `assert`, `IndexError`) are modelled
  with `Except String`.
-/

/-- A box `(x1, y1, x2, y2)` with float coordinates, modelled exactly over `ℚ`. -/
structure QBox where
  x1 : ℚ
  y1 : ℚ
  x2 : ℚ
  y2 : ℚ
deriving DecidableEq, Repr

instance : Inhabited QBox := ⟨⟨0, 0, 0, 0⟩⟩

/-- A box `(x1, y1, x2, y2)` with int32 coordinates, modelled over `ℤ`. -/
structure ZBox where
  x1 : ℤ
  y1 : ℤ
  x2 : ℤ
  y2 : ℤ
deriving DecidableEq, Repr

instance : Inhabited ZBox := ⟨⟨0, 0, 0, 0⟩⟩

/-- `torch.Tensor.round_`: round to nearest integer, ties to even
(the rounding mode of torch `round`). -/
def roundHalfEven (q : ℚ) : ℤ :=
  if q - ⌊q⌋ < 1/2 then ⌊q⌋
  else if 1/2 < q - ⌊q⌋ then ⌊q⌋ + 1
  else if ⌊q⌋ % 2 = 0 then ⌊q⌋ else ⌊q⌋ + 1

/-- `boxes.round_()` applied to one box (result still a float tensor). -/
def roundQBox (b : QBox) : QBox :=
  ⟨(roundHalfEven b.x1 : ℚ), (roundHalfEven b.y1 : ℚ),
   (roundHalfEven b.x2 : ℚ), (roundHalfEven b.y2 : ℚ)⟩

/-- `.to(torch.int32)` on a float scalar: truncation toward zero. -/
def ratTrunc (q : ℚ) : ℤ :=
  if 0 ≤ q then ⌊q⌋ else ⌈q⌉

/-- `.to(torch.int32)` on one box. -/
def toZBox (b : QBox) : ZBox :=
  ⟨ratTrunc b.x1, ratTrunc b.y1, ratTrunc b.x2, ratTrunc b.y2⟩

/-- `boxes.to(torch.float32)` on one int box (all values exact). -/
def zToQ (b : ZBox) : QBox :=
  ⟨(b.x1 : ℚ), (b.y1 : ℚ), (b.x2 : ℚ), (b.y2 : ℚ)⟩

/-- `update_box_sizes_following_image_resize(boxes, original_size, new_size)`
(region.py lines 291-299): per-axis linear rescale by
`ratio = new_size / original_size`, sizes being `(height, width)` pairs. -/
def update_box_sizes_following_image_resize (boxes : List QBox)
    (original_size new_size : ℤ × ℤ) : List QBox :=
  let ratio_height := (new_size.1 : ℚ) / (original_size.1 : ℚ)
  let ratio_width := (new_size.2 : ℚ) / (original_size.2 : ℚ)
  boxes.map fun b =>
    ⟨b.x1 * ratio_width, b.y1 * ratio_height, b.x2 * ratio_width, b.y2 * ratio_height⟩

/-- The per-box computation of `convert_to_patch_boxes` (region.py lines
314-358), after the input has been rounded and cast to int32.  The tensor
code is row-wise independent, so it is embedded per box:
parity fix of `x2`/`y2`, symmetric deltas to reach side `t` (divisions are
exact because widths/heights are forced even and `t` is asserted even),
then the four overhang clamps in source order (low x, low y, high x,
high y), each written with the same mask pattern as the source
(`overhang[overhang < 0] = 0`).  `frame_size` is `(height, width)`. -/
def patchBoxOne (b : ZBox) (frame_size : ℤ × ℤ) (t : ℤ) : ZBox :=
  let x2a := if (b.x2 - b.x1) % 2 = 1 then b.x2 + 1 else b.x2
  let y2a := if (b.y2 - b.y1) % 2 = 1 then b.y2 + 1 else b.y2
  let w := x2a - b.x1
  let h := y2a - b.y1
  let x1b := b.x1 + (w - t) / 2
  let y1b := b.y1 + (h - t) / 2
  let x2b := x2a + (t - w) / 2
  let y2b := y2a + (t - h) / 2
  let ovxl := if -x1b < 0 then 0 else -x1b
  let x1c := x1b + ovxl
  let x2c := x2b + ovxl
  let ovyl := if -y1b < 0 then 0 else -y1b
  let y1c := y1b + ovyl
  let y2c := y2b + ovyl
  let ovxh := if x2c - frame_size.2 + 1 < 0 then 0 else x2c - frame_size.2 + 1
  let x1d := x1c - ovxh
  let x2d := x2c - ovxh
  let ovyh := if y2c - frame_size.1 + 1 < 0 then 0 else y2c - frame_size.1 + 1
  ⟨x1d, y1c - ovyh, x2d, y2c - ovyh⟩

/-- `convert_to_patch_boxes(boxes, frame_size, target_side_length)`
(region.py lines 302-361).  The first statement `boxes.round_()` mutates
the caller's float tensor in place, so the function is modelled with
state passing: the second component of the result is the content of the
caller's tensor after the call (its rounded coordinates).  The failing
`assert target_side_length % 2 == 0` is the `.error` branch; it fires
after the in-place rounding, as in the source. -/
def convert_to_patch_boxes (boxes : List QBox) (frame_size : ℤ × ℤ)
    (target_side_length : ℤ) : Except String (List QBox) × List QBox :=
  let rounded := boxes.map roundQBox
  ((if target_side_length % 2 = 0 then
      .ok (((rounded.map toZBox).map fun b =>
        patchBoxOne b frame_size target_side_length).map zToQ)
    else .error "AssertionError"), rounded)

/-- `np.ceil(frame_dimension / isize).astype(np.int64)` (region.py lines 81-82). -/
def tile_count (d isize : ℤ) : ℤ :=
  ⌈(d : ℚ) / (isize : ℚ)⌉

/-- `tile_stride = (frame_dimension - isize) / (tile_count - 1)` (region.py
lines 84-85).  This is IEEE float division: when `tile_count - 1 == 0` it
does not raise, it produces `inf` or `nan`; that non-finite value is
modelled as `none`. -/
def tile_stride (d isize : ℤ) : Option ℚ :=
  if tile_count d isize - 1 = 0 then none
  else some (((d : ℚ) - (isize : ℚ)) / ((tile_count d isize : ℚ) - 1))

/-- `np.floor(k * tile_stride).astype(np.int32)` (region.py lines 90-91).
A non-finite stride propagates (`0 * nan = nan`, `0 * inf = nan`), so the
origin is undefined (`none`) whenever the stride is. -/
def tile_origin (d isize : ℤ) (k : ℕ) : Option ℤ :=
  (tile_stride d isize).map fun s => ⌊(k : ℚ) * s⌋

/-- `tiled_boxes(frame, isize)` (region.py lines 78-94): the row-major grid
of boxes `[tile_col, tile_row, tile_col + isize, tile_row + isize]`, for
`r < tile_count_r`, `c < tile_count_c`, stored at index
`tile_count_c * r + c`.  `H`/`W` are the frame's first two shape entries. -/
def tiled_boxes (H W isize : ℤ) : List (Option ℤ × Option ℤ × Option ℤ × Option ℤ) :=
  (List.range (tile_count H isize).toNat).flatMap fun r =>
    (List.range (tile_count W isize).toNat).map fun c =>
      (tile_origin W isize c, tile_origin H isize r,
       (tile_origin W isize c).map (· + isize),
       (tile_origin H isize r).map (· + isize))

/-- `likelihood_to_class_threshold` (region.py lines 97-99):
`cos(likelihood * pi / 2) ** 4`, modelled over the reals. -/
noncomputable def likelihood_to_class_threshold (likelihood : ℝ) : ℝ :=
  Real.cos (likelihood * Real.pi / 2) ^ (4 : ℕ)

/-- `self.pseudo_scores = torch.arange(1000, 0, -1)` (region.py line 112):
the fixed list `[1000, 999, ..., 1]`. -/
def pseudo_scores : List ℚ :=
  (List.range 1000).map fun i : ℕ => (1000 : ℚ) - (i : ℚ)

/-- `torchvision.ops.boxes.clip_boxes_to_image(boxes, size)` for one box,
`size = (height, width)`: clamp x coordinates into `[0, width]` and y
coordinates into `[0, height]`.  External collaborator, modelled from its
interface (spec section 4.1 `clip_to_frame`). -/
def clip_boxes_to_image (b : QBox) (size : ℤ × ℤ) : QBox :=
  ⟨min (max b.x1 0) (size.2 : ℚ), min (max b.y1 0) (size.1 : ℚ),
   min (max b.x2 0) (size.2 : ℚ), min (max b.y2 0) (size.1 : ℚ)⟩

/-- `torchvision.ops.boxes.remove_small_boxes(boxes, min_size)`:
indices of the boxes whose width and height are both at least `min_size`.
External collaborator, modelled from its interface
(spec section 4.1 `filter_by_min_size`). -/
def remove_small_boxes (boxes : List QBox) (min_size : ℚ) : List ℕ :=
  (List.range boxes.length).filter fun i =>
    decide (min_size ≤ (boxes.getD i default).x2 - (boxes.getD i default).x1 ∧
            min_size ≤ (boxes.getD i default).y2 - (boxes.getD i default).y1)

/-- `boxes[keep]`: select the rows at the given indices, in index-list order. -/
def index_select [Inhabited α] (l : List α) (idx : List ℕ) : List α :=
  idx.map fun i => l.getD i default

/-- Area of a box, as in `torchvision.ops.boxes.box_area`. -/
def box_area (b : QBox) : ℚ :=
  (b.x2 - b.x1) * (b.y2 - b.y1)

/-- Pairwise IoU, as in `torchvision.ops.boxes.box_iou`: intersection over
union with the intersection width/height clamped at zero. -/
def box_iou (a b : QBox) : ℚ :=
  let iw := max 0 (min a.x2 b.x2 - max a.x1 b.x1)
  let ih := max 0 (min a.y2 b.y2 - max a.y1 b.y1)
  let inter := iw * ih
  inter / (box_area a + box_area b - inter)

/-- Insert an index into an index list sorted by `le` (stable). -/
def insertSorted (le : ℕ → ℕ → Bool) (i : ℕ) : List ℕ → List ℕ
  | [] => [i]
  | j :: rest => if le i j then i :: j :: rest else j :: insertSorted le i rest

/-- Stable insertion sort of an index list by `le`. -/
def sortIndices (le : ℕ → ℕ → Bool) : List ℕ → List ℕ
  | [] => []
  | i :: rest => insertSorted le i (sortIndices le rest)

/-- Greedy suppression loop of NMS: keep the best remaining candidate and
drop every later candidate whose IoU with it exceeds the threshold. -/
def nmsLoop (boxes : List QBox) (thr : ℚ) : ℕ → List ℕ → List ℕ
  | 0, _ => []
  | _, [] => []
  | fuel + 1, i :: rest =>
      i :: nmsLoop boxes thr fuel (rest.filter fun j =>
        decide (box_iou (boxes.getD i default) (boxes.getD j default) ≤ thr))

/-- `torchvision.ops.boxes.nms(boxes, scores, iou_threshold)`: greedy NMS,
candidates visited by descending score, ties broken by ascending original
index.  External collaborator, modelled from its interface
(spec section 4.1 `nms`); the fuel argument of the loop is the candidate
count, which the filter inside the loop never exceeds. -/
def nms (boxes : List QBox) (scores : List ℚ) (thr : ℚ) : List ℕ :=
  let order := sortIndices
    (fun i j => decide (scores.getD j 0 < scores.getD i 0 ∨
      (scores.getD i 0 = scores.getD j 0 ∧ i ≤ j)))
    (List.range boxes.length)
  nmsLoop boxes thr order.length order

/-- `stage` of the extractor: `'rpn'` or `'rcnn'` (region.py line 107). -/
inductive Stage where
  | rpn : Stage
  | rcnn : Stage
deriving DecidableEq

/-- An input frame, reduced to its geometry: the network content of the
pipeline is external, so only the frame's `(height, width)` matter to this
embedding; the oracles of `RegionExtractor` map a frame to the network's
output for it. -/
structure Frame where
  height : ℤ
  width : ℤ
deriving DecidableEq

/-- `RegionExtractor` (region.py lines 102-144): the configuration fixed by
`__init__`, the `self.training` flag of `nn.Module`, and the external
network collaborators (torchvision detection model) as oracle fields:
`transformSize f` is the resized image size produced by `self.transform`,
`rpnProposals f` the proposal boxes of `self.rpn` for `f` (in transformed
coordinates), `rcnnPredictions f` the per-proposal, per-class
`(decoded box, softmax score)` matrix that `self.box_coder.decode` and
`F.softmax` produce inside `postprocess_detections` (class 0 is the
background), and `baseModel f` the boxes of the `use_original` branch. -/
structure RegionExtractor where
  stage : Stage
  patch_mode : Bool
  patch_side_length : ℤ
  use_original : Bool
  min_size : ℚ
  stage_nms_thresh : ℚ
  rcnn_score_thresh : ℚ
  rcnn_detections_per_img : ℕ
  patch_nms_thresh : ℚ
  training : Bool
  transformSize : Frame → ℤ × ℤ
  rpnProposals : Frame → List QBox
  rcnnPredictions : Frame → List (List (QBox × ℚ))
  baseModel : Frame → List QBox

/-- `RegionExtractor.postprocess_detections` (region.py lines 235-288),
restricted to one image of the batch (the loop body is per-image):
clip to the transformed image size, drop the background class column,
flatten per-class predictions, drop scores `<= rcnn_score_thresh`, drop
small boxes, NMS, keep the first `rcnn_detections_per_img` survivors.
The label bookkeeping of the source is omitted: `forward` never reads it. -/
def postprocess_detections_frame (re : RegionExtractor)
    (pred : List (List (QBox × ℚ))) (image_shape : ℤ × ℤ) :
    List QBox × List ℚ :=
  let rows := pred.map fun row => row.map fun p => (clip_boxes_to_image p.1 image_shape, p.2)
  let rows := rows.map fun row => row.drop 1
  let flat := rows.flatten
  let flat := flat.filter fun p => decide (re.rcnn_score_thresh < p.2)
  let keep := remove_small_boxes (flat.map Prod.fst) re.min_size
  let boxes := index_select (flat.map Prod.fst) keep
  let scores := index_select (flat.map Prod.snd) keep
  let keep := nms boxes scores re.stage_nms_thresh
  let keep := keep.take re.rcnn_detections_per_img
  (index_select boxes keep, index_select scores keep)

/-- Body of the per-frame loop of `RegionExtractor.forward` (region.py
lines 184-228): the final `(boxes, scores)` of one frame (`scores` is left
empty by the `'rpn'` stage, as in the source, where `output_scores` is
never appended to in that branch).  Exceptions escaping the loop body
(the even-side assert of `convert_to_patch_boxes`) are propagated. -/
def processFrame (re : RegionExtractor) (f : Frame) :
    Except String (List QBox × List ℚ) :=
  let new_image_size := re.transformSize f
  let original_image_size := (f.height, f.width)
  match re.stage with
  | .rpn =>
    let boxes := (re.rpnProposals f).map (clip_boxes_to_image · new_image_size)
    let boxes := index_select boxes (remove_small_boxes boxes re.min_size)
    let boxes := index_select boxes
      (nms boxes (pseudo_scores.take boxes.length) re.stage_nms_thresh)
    let boxes := update_box_sizes_following_image_resize boxes new_image_size original_image_size
    if re.patch_mode then
      match (convert_to_patch_boxes boxes original_image_size re.patch_side_length).1 with
      | .error e => .error e
      | .ok pboxes =>
        let keep := nms pboxes (pseudo_scores.take pboxes.length) re.patch_nms_thresh
        .ok (index_select pboxes keep, [])
    else
      .ok (boxes, [])
  | .rcnn =>
    let bs := postprocess_detections_frame re (re.rcnnPredictions f) new_image_size
    let boxes := update_box_sizes_following_image_resize bs.1 new_image_size original_image_size
    if re.patch_mode then
      match (convert_to_patch_boxes boxes original_image_size re.patch_side_length).1 with
      | .error e => .error e
      | .ok pboxes =>
        let keep := nms pboxes (pseudo_scores.take pboxes.length) re.patch_nms_thresh
        .ok (index_select pboxes keep, index_select bs.2 keep)
    else
      .ok (boxes, bs.2)

/-- What `RegionExtractor.forward` returns: the `use_original` branch
returns the per-frame list of box arrays (line 172), the main branch
returns `output_boxes[0]` only (line 233), a single frame's box array. -/
inductive ForwardOutput where
  | allFrames : List (List QBox) → ForwardOutput
  | oneFrame : List QBox → ForwardOutput
deriving DecidableEq

/-- Left-to-right sequencing of the per-frame loop: the first exception
raised inside the loop aborts the call, as in Python. -/
def seqExcept : List (Except String α) → Except String (List α)
  | [] => .ok []
  | .error e :: _ => .error e
  | .ok a :: rest =>
    match seqExcept rest with
    | .error e => .error e
    | .ok as' => .ok (a :: as')

/-- `RegionExtractor.forward(cv2_images)` (region.py lines 146-233).
The guard `if self.training: raise ValueError(...)` is the first statement
of the body, before the input is touched; `cv2_images[0]` on an empty list
raises `IndexError` next; the `use_original` branch returns every frame's
boxes; the main branch processes every frame, converts every per-frame
boxes and scores tensor (lines 230-231), then returns `output_boxes[0]`:
the first frame's boxes only, without scores. -/
def RegionExtractor.forward (re : RegionExtractor) (cv2_images : List Frame) :
    Except String ForwardOutput :=
  if re.training then .error "Should not be in training mode"
  else
    match cv2_images with
    | [] => .error "IndexError"
    | f :: fs =>
      if re.use_original then .ok (.allFrames ((f :: fs).map re.baseModel))
      else
        match seqExcept ((f :: fs).map (processFrame re)) with
        | .error e => .error e
        | .ok [] => .error "IndexError"
        | .ok (r :: _) => .ok (.oneFrame r.1)

/-- Test frame 1: a 100 x 100 three-channel image. -/
def frameA : Frame := ⟨100, 100⟩

/-- Test frame 2: a 200 x 200 three-channel image. -/
def frameB : Frame := ⟨200, 200⟩

/-- Proposal box the test network produces for `frameA`. -/
def boxA : QBox := ⟨0, 0, 50, 50⟩

/-- Proposal box the test network produces for `frameB`. -/
def boxB : QBox := ⟨10, 10, 60, 60⟩

/-- A concrete `'rpn'`-stage extractor with the constructor's default
configuration (`min_size = 25`, `max_overlap = 0.3`, `box_confidence = 0.2`)
and a two-frame test network: the transform keeps each frame's size, the
proposal network returns `boxA` for the 100-pixel-high frame and `boxB`
for the other one, and the classification head scores those same boxes
`0.7` against a background box scored `0.3`. -/
def reTest : RegionExtractor where
  stage := .rpn
  patch_mode := false
  patch_side_length := 32
  use_original := false
  min_size := 25
  stage_nms_thresh := 3/10
  rcnn_score_thresh := 1/5
  rcnn_detections_per_img := 100
  patch_nms_thresh := 3/10
  training := false
  transformSize := fun f => (f.height, f.width)
  rpnProposals := fun f => if f.height = 100 then [boxA] else [boxB]
  rcnnPredictions := fun f =>
    if f.height = 100 then [[(⟨0, 0, 30, 30⟩, 3/10), (boxA, 7/10)]]
    else [[(⟨0, 0, 30, 30⟩, 3/10), (boxB, 7/10)]]
  baseModel := fun _ => []

/-- `reTest` switched to the classified (`'rcnn'`) stage. -/
def reTestRcnn : RegionExtractor := { reTest with stage := .rcnn }

/-- `reTest` left in training mode (`self.training = True`). -/
def reTrain : RegionExtractor := { reTest with training := true }

/-! Helper lemmas for evaluating the embedding at concrete inputs. -/

theorem range_one_eq : List.range 1 = [0] := rfl

theorem range_two_eq : List.range 2 = [0, 1] := rfl

/-- Evaluation helper for `tile_count` at concrete arguments. -/
theorem tile_count_eval (d isize n : ℤ) (h1 : (n : ℚ) - 1 < (d : ℚ) / (isize : ℚ))
    (h2 : (d : ℚ) / (isize : ℚ) ≤ (n : ℚ)) : tile_count d isize = n := by
  rw [tile_count, Int.ceil_eq_iff]
  exact ⟨h1, h2⟩

/-- Evaluation helper for `Int.floor` on `ℚ` at concrete arguments. -/
theorem floor_eval (q : ℚ) (n : ℤ) (h1 : (n : ℚ) ≤ q) (h2 : q < (n : ℚ) + 1) : ⌊q⌋ = n := by
  rw [Int.floor_eq_iff]
  exact ⟨h1, h2⟩

/-- C7: for every input, calling `RegionExtractor.forward` while the
extractor is in training mode raises `ValueError("Should not be in
training mode")` as the very first statement of the body, before the
input is read: no partial result is produced for any frame. -/
theorem c7_training_mode_raises (re : RegionExtractor) (frames : List Frame)
    (h : re.training = true) :
    re.forward frames = .error "Should not be in training mode" := by
  simp [RegionExtractor.forward, h]

theorem c7_witness :
    reTrain.training = true ∧
    reTrain.forward [frameA, frameB] = .error "Should not be in training mode" :=
  ⟨rfl, c7_training_mode_raises reTrain [frameA, frameB] rfl⟩

set_option maxHeartbeats 1600000 in
/-- C1 (evaluation of the code at the failing input): with two frames and
one surviving box per frame, `forward` returns `output_boxes[0]` — the
first frame's final boxes only — in both stages; the second frame's final
boxes (`boxB`, distinct from `boxA`) and every per-frame score (here `0.7`
for each frame in the classified stage) are computed by the per-frame loop
but are absent from the returned value, whose constructor carries a single
frame's boxes and no scores. -/
theorem c1_forward_first_frame_only :
    reTest.forward [frameA, frameB] = .ok (.oneFrame [boxA]) ∧
    processFrame reTest frameB = .ok ([boxB], []) ∧
    reTestRcnn.forward [frameA, frameB] = .ok (.oneFrame [boxA]) ∧
    processFrame reTestRcnn frameA = .ok ([boxA], [7/10]) ∧
    processFrame reTestRcnn frameB = .ok ([boxB], [7/10]) ∧
    boxA ≠ boxB := by
  refine ⟨?_, ?_, ?_, ?_, ?_, ?_⟩
  case _ =>
    norm_num [RegionExtractor.forward, seqExcept, reTest, processFrame,
      frameA, frameB, boxA, boxB, clip_boxes_to_image,
      remove_small_boxes, index_select, nms, sortIndices, insertSorted, nmsLoop,
      update_box_sizes_following_image_resize, List.range_succ,
      List.filterMap_cons, List.filterMap_nil, List.filter_cons, List.filter_nil,
      List.getElem?_cons_zero, List.getElem?_cons_succ, List.getElem?_nil,
      List.getD_cons_zero, List.getD_cons_succ, range_one_eq, range_two_eq,
      List.range_zero, Option.getD_some, List.drop, List.flatten]
  case _ =>
    norm_num [processFrame, reTest, frameA, frameB, boxB, clip_boxes_to_image,
      remove_small_boxes, index_select, nms, sortIndices, insertSorted, nmsLoop,
      update_box_sizes_following_image_resize, List.range_succ,
      List.filterMap_cons, List.filterMap_nil, List.filter_cons, List.filter_nil,
      List.getElem?_cons_zero, List.getElem?_cons_succ, List.getElem?_nil,
      List.getD_cons_zero, List.getD_cons_succ, range_one_eq, range_two_eq,
      List.range_zero, Option.getD_some, List.drop, List.flatten]
  case _ =>
    norm_num [RegionExtractor.forward, seqExcept, reTestRcnn, reTest, processFrame,
      frameA, frameB, boxA, boxB, postprocess_detections_frame, clip_boxes_to_image,
      remove_small_boxes, index_select, nms, sortIndices, insertSorted, nmsLoop,
      update_box_sizes_following_image_resize, List.range_succ,
      List.filterMap_cons, List.filterMap_nil, List.filter_cons, List.filter_nil,
      List.getElem?_cons_zero, List.getElem?_cons_succ, List.getElem?_nil,
      List.getD_cons_zero, List.getD_cons_succ, range_one_eq, range_two_eq,
      List.range_zero, Option.getD_some, List.drop, List.flatten]
  case _ =>
    norm_num [processFrame, reTestRcnn, reTest, frameA, boxA,
      postprocess_detections_frame, clip_boxes_to_image,
      remove_small_boxes, index_select, nms, sortIndices, insertSorted, nmsLoop,
      update_box_sizes_following_image_resize, List.range_succ,
      List.filterMap_cons, List.filterMap_nil, List.filter_cons, List.filter_nil,
      List.getElem?_cons_zero, List.getElem?_cons_succ, List.getElem?_nil,
      List.getD_cons_zero, List.getD_cons_succ, range_one_eq, range_two_eq,
      List.range_zero, Option.getD_some, List.drop, List.flatten]
  case _ =>
    norm_num [processFrame, reTestRcnn, reTest, frameB, boxB,
      postprocess_detections_frame, clip_boxes_to_image,
      remove_small_boxes, index_select, nms, sortIndices, insertSorted, nmsLoop,
      update_box_sizes_following_image_resize, List.range_succ,
      List.filterMap_cons, List.filterMap_nil, List.filter_cons, List.filter_nil,
      List.getElem?_cons_zero, List.getElem?_cons_succ, List.getElem?_nil,
      List.getD_cons_zero, List.getD_cons_succ, range_one_eq, range_two_eq,
      List.range_zero, Option.getD_some, List.drop, List.flatten]
  case _ =>
    norm_num [boxA, boxB, QBox.mk.injEq]

set_option maxHeartbeats 3200000 in
/-- Core size invariant of the patch-box normalizer: after the parity fix
and the symmetric (exactly even) deltas, a box has side exactly `t` on
both axes, and the four clamps only translate it. -/
theorem patchBoxOne_size (b : ZBox) (fs : ℤ × ℤ) (t : ℤ) (ht : t % 2 = 0) :
    (patchBoxOne b fs t).x2 - (patchBoxOne b fs t).x1 = t ∧
    (patchBoxOne b fs t).y2 - (patchBoxOne b fs t).y1 = t := by
  simp only [patchBoxOne]
  split_ifs <;> constructor <;> omega

set_option maxHeartbeats 3200000 in
/-- Core containment invariant of the patch-box normalizer: when the frame
strictly exceeds the (even) target side on both axes, the clamped box lies
inside `[0, W-1] x [0, H-1]`. -/
theorem patchBoxOne_bounds (b : ZBox) (H W t : ℤ) (ht : t % 2 = 0)
    (hW : t + 1 ≤ W) (hH : t + 1 ≤ H) :
    0 ≤ (patchBoxOne b (H, W) t).x1 ∧ (patchBoxOne b (H, W) t).x2 ≤ W - 1 ∧
    0 ≤ (patchBoxOne b (H, W) t).y1 ∧ (patchBoxOne b (H, W) t).y2 ≤ H - 1 := by
  simp only [patchBoxOne]
  split_ifs <;> refine ⟨?_, ?_, ?_, ?_⟩ <;> omega

/-- C9: `convert_to_patch_boxes` mutates its input: its first statement
`boxes.round_()` rounds the caller's tensor in place, so after the call
the caller's tensor holds the rounded coordinates (`boxes.map roundQBox`)
— and, at any fractional input such as `x1 = 1/2`, no longer its original
values. -/
theorem c9_round_in_place :
    (∀ (boxes : List QBox) (fs : ℤ × ℤ) (t : ℤ),
        (convert_to_patch_boxes boxes fs t).2 = boxes.map roundQBox) ∧
    (convert_to_patch_boxes [⟨1/2, 0, 2, 2⟩] (10, 10) 2).2 ≠ [⟨1/2, 0, 2, 2⟩] := by
  refine ⟨fun boxes fs t => rfl, ?_⟩
  have hhalf : ⌊(1/2 : ℚ)⌋ = 0 := by apply floor_eval <;> norm_num
  have h0 : ⌊(0 : ℚ)⌋ = 0 := Int.floor_zero
  have h2 : ⌊(2 : ℚ)⌋ = 2 := by apply floor_eval <;> norm_num
  norm_num [convert_to_patch_boxes, roundQBox, roundHalfEven, hhalf, h0, h2, QBox.mk.injEq]

/-- C2, counterexample to the claim as stated: with the frame exactly as
large as the (even, positive) patch side — `frame = (2, 2)`,
`patch_side_length = 2`, so `height ≥ 2` and `width ≥ 2` hold — the input
box `(0, 0, 2, 2)` is shifted left and up by the high-edge clamps to
`(-1, -1, 1, 1)`: its `x1` (and `y1`) violate `0 ≤ x1`. -/
theorem c2_counterexample :
    ((2 : ℤ) % 2 = 0 ∧ 0 < (2 : ℤ) ∧ (2 : ℤ) ≤ 2 ∧ (2 : ℤ) ≤ 2) ∧
    (convert_to_patch_boxes [⟨0, 0, 2, 2⟩] (2, 2) 2).1 = .ok [⟨-1, -1, 1, 1⟩] ∧
    ¬ (0 ≤ (QBox.mk (-1) (-1) 1 1).x1) := by
  have hp : patchBoxOne ⟨0, 0, 2, 2⟩ (2, 2) 2 = ⟨-1, -1, 1, 1⟩ := by decide
  have h0 : ⌊(0 : ℚ)⌋ = 0 := Int.floor_zero
  have h2 : ⌊(2 : ℚ)⌋ = 2 := by apply floor_eval <;> norm_num
  refine ⟨by norm_num, ?_, by norm_num⟩
  norm_num [convert_to_patch_boxes, roundQBox, roundHalfEven, toZBox, ratTrunc,
    zToQ, h0, h2, hp]

/-- C2, amended: for every batch of boxes and every even patch side `t`,
if the frame's height and width both *strictly* exceed `t` (at least
`t + 1`; equality is the counterexample above), then every box returned by
`convert_to_patch_boxes` satisfies `0 ≤ x1`, `x2 ≤ width - 1`, `0 ≤ y1`
and `y2 ≤ height - 1`. -/
theorem c2_patch_boxes_inside_frame (boxes : List QBox) (H W t : ℤ)
    (ht : t % 2 = 0) (hW : t + 1 ≤ W) (hH : t + 1 ≤ H) (out : List QBox)
    (hout : (convert_to_patch_boxes boxes (H, W) t).1 = .ok out) :
    ∀ b ∈ out, 0 ≤ b.x1 ∧ b.x2 ≤ (W : ℚ) - 1 ∧ 0 ≤ b.y1 ∧ b.y2 ≤ (H : ℚ) - 1 := by
  simp only [convert_to_patch_boxes, ht, if_pos, List.map_map, Except.ok.injEq] at hout
  subst hout
  intro b hb
  simp only [List.mem_map, Function.comp] at hb
  obtain ⟨q, _, rfl⟩ := hb
  have h := patchBoxOne_bounds (toZBox (roundQBox q)) H W t ht hW hH
  simp only [zToQ]
  exact ⟨by exact_mod_cast h.1, by exact_mod_cast h.2.1,
    by exact_mod_cast h.2.2.1, by exact_mod_cast h.2.2.2⟩

theorem c2_witness :
    ((32 : ℤ) % 2 = 0 ∧ (32 : ℤ) + 1 ≤ 100 ∧
      (convert_to_patch_boxes [⟨0, 0, 50, 50⟩] (100, 100) 32).1 = .ok [⟨9, 9, 41, 41⟩]) ∧
    (0 ≤ (QBox.mk 9 9 41 41).x1 ∧ (QBox.mk 9 9 41 41).x2 ≤ (100 : ℚ) - 1 ∧
      0 ≤ (QBox.mk 9 9 41 41).y1 ∧ (QBox.mk 9 9 41 41).y2 ≤ (100 : ℚ) - 1) := by
  have hp : patchBoxOne ⟨0, 0, 50, 50⟩ (100, 100) 32 = ⟨9, 9, 41, 41⟩ := by decide
  have h0 : ⌊(0 : ℚ)⌋ = 0 := Int.floor_zero
  have h50 : ⌊(50 : ℚ)⌋ = 50 := by apply floor_eval <;> norm_num
  have hconv : (convert_to_patch_boxes [⟨0, 0, 50, 50⟩] (100, 100) 32).1 =
      .ok [⟨9, 9, 41, 41⟩] := by
    norm_num [convert_to_patch_boxes, roundQBox, roundHalfEven, toZBox, ratTrunc,
      zToQ, h0, h50, hp]
  exact ⟨⟨by norm_num, by norm_num, hconv⟩,
    c2_patch_boxes_inside_frame [⟨0, 0, 50, 50⟩] 100 100 32 (by norm_num) (by norm_num)
      (by norm_num) [⟨9, 9, 41, 41⟩] hconv ⟨9, 9, 41, 41⟩ (List.mem_singleton.mpr rfl)⟩

/-- C4: for every batch of boxes, every frame size, and every even positive
patch side `t`, every box returned by `convert_to_patch_boxes` has width
and height exactly `t`: `x2 - x1 = t` and `y2 - y1 = t`. -/
theorem c4_patch_boxes_exact_size (boxes : List QBox) (H W t : ℤ)
    (ht : t % 2 = 0) (_htpos : 0 < t) (out : List QBox)
    (hout : (convert_to_patch_boxes boxes (H, W) t).1 = .ok out) :
    ∀ b ∈ out, b.x2 - b.x1 = (t : ℚ) ∧ b.y2 - b.y1 = (t : ℚ) := by
  simp only [convert_to_patch_boxes, ht, if_pos, List.map_map, Except.ok.injEq] at hout
  subst hout
  intro b hb
  simp only [List.mem_map, Function.comp] at hb
  obtain ⟨q, _, rfl⟩ := hb
  have h := patchBoxOne_size (toZBox (roundQBox q)) (H, W) t ht
  simp only [zToQ]
  exact ⟨by exact_mod_cast h.1, by exact_mod_cast h.2⟩

theorem c4_witness :
    ((32 : ℤ) % 2 = 0 ∧ 0 < (32 : ℤ) ∧
      (convert_to_patch_boxes [⟨0, 0, 50, 50⟩] (100, 100) 32).1 = .ok [⟨9, 9, 41, 41⟩]) ∧
    ((QBox.mk 9 9 41 41).x2 - (QBox.mk 9 9 41 41).x1 = ((32 : ℤ) : ℚ) ∧
      (QBox.mk 9 9 41 41).y2 - (QBox.mk 9 9 41 41).y1 = ((32 : ℤ) : ℚ)) := by
  have hp : patchBoxOne ⟨0, 0, 50, 50⟩ (100, 100) 32 = ⟨9, 9, 41, 41⟩ := by decide
  have h0 : ⌊(0 : ℚ)⌋ = 0 := Int.floor_zero
  have h50 : ⌊(50 : ℚ)⌋ = 50 := by apply floor_eval <;> norm_num
  have hconv : (convert_to_patch_boxes [⟨0, 0, 50, 50⟩] (100, 100) 32).1 =
      .ok [⟨9, 9, 41, 41⟩] := by
    norm_num [convert_to_patch_boxes, roundQBox, roundHalfEven, toZBox, ratTrunc,
      zToQ, h0, h50, hp]
  exact ⟨⟨by norm_num, by norm_num, hconv⟩,
    c4_patch_boxes_exact_size [⟨0, 0, 50, 50⟩] 100 100 32 (by norm_num) (by norm_num)
      [⟨9, 9, 41, 41⟩] hconv ⟨9, 9, 41, 41⟩ (List.mem_singleton.mpr rfl)⟩

/-- C8: rescaling a batch of boxes from coordinate space `A` to `B`
(`update_box_sizes_following_image_resize` with ratio `B / A` per axis)
and then from `B` back to `A` returns the original boxes exactly, over
the exact-arithmetic model, whenever both spaces have nonzero height and
width. -/
theorem c8_rescale_roundtrip (boxes : List QBox) (A B : ℤ × ℤ)
    (hA1 : A.1 ≠ 0) (hA2 : A.2 ≠ 0) (hB1 : B.1 ≠ 0) (hB2 : B.2 ≠ 0) :
    update_box_sizes_following_image_resize
      (update_box_sizes_following_image_resize boxes A B) B A = boxes := by
  have hA1q : ((A.1 : ℚ)) ≠ 0 := Int.cast_ne_zero.mpr hA1
  have hA2q : ((A.2 : ℚ)) ≠ 0 := Int.cast_ne_zero.mpr hA2
  have hB1q : ((B.1 : ℚ)) ≠ 0 := Int.cast_ne_zero.mpr hB1
  have hB2q : ((B.2 : ℚ)) ≠ 0 := Int.cast_ne_zero.mpr hB2
  simp only [update_box_sizes_following_image_resize, List.map_map]
  conv_rhs => rw [← List.map_id boxes]
  refine List.map_congr_left fun b _ => ?_
  obtain ⟨x1, y1, x2, y2⟩ := b
  simp only [Function.comp, id, QBox.mk.injEq]
  refine ⟨?_, ?_, ?_, ?_⟩ <;> field_simp

theorem c8_witness :
    (((2 : ℤ), (3 : ℤ)).1 ≠ 0 ∧ ((2 : ℤ), (3 : ℤ)).2 ≠ 0 ∧
      ((5 : ℤ), (7 : ℤ)).1 ≠ 0 ∧ ((5 : ℤ), (7 : ℤ)).2 ≠ 0) ∧
    update_box_sizes_following_image_resize
      (update_box_sizes_following_image_resize [⟨1, 2, 3, 4⟩] (2, 3) (5, 7))
      (5, 7) (2, 3) = [⟨1, 2, 3, 4⟩] :=
  ⟨⟨by norm_num, by norm_num, by norm_num, by norm_num⟩,
    c8_rescale_roundtrip [⟨1, 2, 3, 4⟩] (2, 3) (5, 7)
      (by norm_num) (by norm_num) (by norm_num) (by norm_num)⟩

/-- C6: the likelihood-to-threshold remapping satisfies
`likelihood_to_class_threshold 0 = 1`, `likelihood_to_class_threshold 1 = 0`,
and is strictly monotonically decreasing on `[0, 1]`. -/
theorem c6_likelihood_threshold :
    likelihood_to_class_threshold 0 = 1 ∧
    likelihood_to_class_threshold 1 = 0 ∧
    ∀ a b : ℝ, 0 ≤ a → a < b → b ≤ 1 →
      likelihood_to_class_threshold b < likelihood_to_class_threshold a := by
  refine ⟨?_, ?_, ?_⟩
  · simp [likelihood_to_class_threshold]
  · simp [likelihood_to_class_threshold]
  · intro a b ha hab hb1
    have hpi := Real.pi_pos
    have hxy : a * Real.pi / 2 < b * Real.pi / 2 := by
      have := mul_lt_mul_of_pos_right hab hpi
      linarith
    have hx0 : 0 ≤ a * Real.pi / 2 := by positivity
    have hy2 : b * Real.pi / 2 ≤ Real.pi / 2 := by nlinarith
    have hcos : Real.cos (b * Real.pi / 2) < Real.cos (a * Real.pi / 2) :=
      Real.cos_lt_cos_of_nonneg_of_le_pi hx0 (by linarith) hxy
    have hcosb : 0 ≤ Real.cos (b * Real.pi / 2) :=
      Real.cos_nonneg_of_mem_Icc ⟨by linarith, hy2⟩
    have hpow : Real.cos (b * Real.pi / 2) ^ (4 : ℕ) < Real.cos (a * Real.pi / 2) ^ (4 : ℕ) :=
      pow_lt_pow_left₀ hcos hcosb (by norm_num)
    simpa [likelihood_to_class_threshold] using hpow

theorem c6_witness :
    (0 ≤ (0 : ℝ) ∧ (0 : ℝ) < 1 ∧ (1 : ℝ) ≤ 1) ∧
    likelihood_to_class_threshold 1 < likelihood_to_class_threshold 0 :=
  ⟨⟨le_rfl, one_pos, le_rfl⟩,
    c6_likelihood_threshold.2.2 0 1 le_rfl one_pos le_rfl⟩

/-- C10: `pseudo_scores` is the fixed strictly decreasing 1000-element
sequence `1000, 999, ..., 1`, so the slice `pseudo_scores[:N]` used as NMS
scores has length `N` exactly when at most 1000 boxes are present
(`N ≤ 1000`), and is strictly decreasing in the original index for
every `N`. -/
theorem c10_pseudo_scores_slice :
    pseudo_scores.length = 1000 ∧
    ∀ N : ℕ, ((pseudo_scores.take N).length = N ↔ N ≤ 1000) ∧
      (pseudo_scores.take N).Pairwise (· > ·) := by
  have hlen : pseudo_scores.length = 1000 := by
    rw [pseudo_scores, List.length_map, List.length_range]
  have hpw : pseudo_scores.Pairwise (· > ·) := by
    rw [pseudo_scores, List.pairwise_map]
    refine List.Pairwise.imp ?_ (List.pairwise_lt_range 1000)
    intro i j hij
    have h : (i : ℚ) < (j : ℚ) := by exact_mod_cast hij
    exact sub_lt_sub_left h (1000 : ℚ)
  refine ⟨hlen, fun N => ⟨?_, List.Pairwise.sublist (List.take_sublist N pseudo_scores) hpw⟩⟩
  rw [List.length_take, hlen]
  omega

/-- Axis coverage of the tiler: when the frame dimension `d` strictly
exceeds the tile side `isize > 0`, the stride is defined and every
coordinate `y` of `[0, d)` lies inside the tile of some row index
`k < tile_count`. -/
theorem tile_origin_covers (d isize : ℤ) (hs : 0 < isize) (hd : isize < d)
    (y : ℤ) (h0 : 0 ≤ y) (hy : y < d) :
    ∃ k : ℕ, k < (tile_count d isize).toNat ∧ ∃ o : ℤ,
      tile_origin d isize k = some o ∧ o ≤ y ∧ y < o + isize := by
  have hsq : (0 : ℚ) < (isize : ℚ) := by exact_mod_cast hs
  have hdq : (isize : ℚ) < (d : ℚ) := by exact_mod_cast hd
  have hn2 : 2 ≤ tile_count d isize := by
    have h1 : ((1 : ℤ) : ℚ) < (d : ℚ) / (isize : ℚ) := by
      rw [Int.cast_one, one_lt_div hsq]
      exact hdq
    have := Int.lt_ceil.mpr h1
    rw [tile_count]
    omega
  have hne : ¬ (tile_count d isize - 1 = 0) := by omega
  have hdenq : (0 : ℚ) < (tile_count d isize : ℚ) - 1 := by
    have h1 : (1 : ℚ) < (tile_count d isize : ℚ) := by
      exact_mod_cast (by omega : (1 : ℤ) < tile_count d isize)
    linarith
  have hstride : tile_stride d isize = some (((d : ℚ) - (isize : ℚ)) / ((tile_count d isize : ℚ) - 1)) := by
    rw [tile_stride, if_neg hne]
  set s : ℚ := ((d : ℚ) - (isize : ℚ)) / ((tile_count d isize : ℚ) - 1) with hsdef
  have hspos : 0 < s := div_pos (by linarith) hdenq
  have hnceil : (d : ℚ) / (isize : ℚ) ≤ (tile_count d isize : ℚ) := by
    rw [tile_count]
    exact_mod_cast Int.le_ceil _
  have hds : (d : ℚ) ≤ (isize : ℚ) * (tile_count d isize : ℚ) := by
    rw [div_le_iff hsq] at hnceil
    linarith
  have hsle : s ≤ (isize : ℚ) := by
    rw [hsdef, div_le_iff hdenq]
    nlinarith
  have hlast : s * ((tile_count d isize : ℚ) - 1) = (d : ℚ) - (isize : ℚ) :=
    div_mul_cancel₀ _ (ne_of_gt hdenq)
  have hP0 : ⌊((0 : ℕ) : ℚ) * s⌋ ≤ y := by
    simpa using h0
  set b : ℕ := (tile_count d isize).toNat - 1 with hb
  have hPk : ⌊((Nat.findGreatest (fun j => ⌊(j : ℚ) * s⌋ ≤ y) b : ℕ) : ℚ) * s⌋ ≤ y :=
    @Nat.findGreatest_spec 0 (fun j => ⌊(j : ℚ) * s⌋ ≤ y) _ b (Nat.zero_le b) hP0
  have hkb : Nat.findGreatest (fun j => ⌊(j : ℚ) * s⌋ ≤ y) b ≤ b := Nat.findGreatest_le b
  set k := Nat.findGreatest (fun j => ⌊(j : ℚ) * s⌋ ≤ y) b with hk
  have htn : 2 ≤ (tile_count d isize).toNat := by omega
  refine ⟨k, by omega, ⌊(k : ℚ) * s⌋, ?_, hPk, ?_⟩
  · rw [tile_origin, hstride]
    rfl
  · by_cases hkb' : k = b
    · have hcast : ((k : ℕ) : ℚ) = (tile_count d isize : ℚ) - 1 := by
        rw [hkb', hb]
        have h1 : ((tile_count d isize).toNat - 1 : ℕ) = ((tile_count d isize - 1 : ℤ)).toNat := by
          omega
        rw [h1]
        have h2 : (((tile_count d isize - 1 : ℤ)).toNat : ℤ) = tile_count d isize - 1 :=
          Int.toNat_of_nonneg (by omega)
        calc (((tile_count d isize - 1 : ℤ).toNat : ℕ) : ℚ)
            = ((((tile_count d isize - 1 : ℤ).toNat : ℤ)) : ℚ) := by push_cast; ring
          _ = ((tile_count d isize - 1 : ℤ) : ℚ) := by rw [h2]
          _ = (tile_count d isize : ℚ) - 1 := by push_cast; ring
      have hflo : ⌊(k : ℚ) * s⌋ = d - isize := by
        rw [hcast, mul_comm, hlast]
        rw [show (d : ℚ) - (isize : ℚ) = ((d - isize : ℤ) : ℚ) by push_cast; ring]
        exact Int.floor_intCast _
      omega
    · have hnotP : ¬ (⌊((k + 1 : ℕ) : ℚ) * s⌋ ≤ y) := by
        have := @Nat.findGreatest_is_greatest (k + 1) (fun j => ⌊(j : ℚ) * s⌋ ≤ y) _ b
          (by omega) (by omega)
        exact this
      push_neg at hnotP
      have hle : ((k + 1 : ℕ) : ℚ) * s ≤ (k : ℚ) * s + (isize : ℚ) := by
        push_cast
        nlinarith
      have hmono : ⌊((k + 1 : ℕ) : ℚ) * s⌋ ≤ ⌊(k : ℚ) * s⌋ + isize := by
        calc ⌊((k + 1 : ℕ) : ℚ) * s⌋ ≤ ⌊(k : ℚ) * s + (isize : ℚ)⌋ := Int.floor_le_floor hle
          _ = ⌊(k : ℚ) * s⌋ + isize := Int.floor_add_int _ _
      omega

/-- C5: when the frame's height and width both strictly exceed the tile
side `isize > 0`, every pixel `(y, x)` of the frame is covered by some
tile of `tiled_boxes` (all four coordinates of that tile are defined); and
in particular `tiled_boxes` on a 64 x 64 frame with `isize = 32` is
exactly the four tiles with origins `(0,0)`, `(32,0)`, `(0,32)`, `(32,32)`
in row-major order. -/
theorem c5_tiler_covers_frame (H W isize : ℤ) (hs : 0 < isize)
    (hH : isize < H) (hW : isize < W) :
    (∀ y x : ℤ, 0 ≤ y → y < H → 0 ≤ x → x < W →
      ∃ tl ∈ tiled_boxes H W isize, ∃ cx cy : ℤ,
        tl.1 = some cx ∧ tl.2.1 = some cy ∧
        tl.2.2.1 = some (cx + isize) ∧ tl.2.2.2 = some (cy + isize) ∧
        cx ≤ x ∧ x < cx + isize ∧ cy ≤ y ∧ y < cy + isize) ∧
    tiled_boxes 64 64 32 =
      [(some 0, some 0, some 32, some 32), (some 32, some 0, some 64, some 32),
       (some 0, some 32, some 32, some 64), (some 32, some 32, some 64, some 64)] := by
  constructor
  · intro y x hy0 hyH hx0 hxW
    obtain ⟨kr, hkr, orow, horow, hor1, hor2⟩ := tile_origin_covers H isize hs hH y hy0 hyH
    obtain ⟨kc, hkc, ocol, hocol, hoc1, hoc2⟩ := tile_origin_covers W isize hs hW x hx0 hxW
    refine ⟨(tile_origin W isize kc, tile_origin H isize kr,
      (tile_origin W isize kc).map (· + isize), (tile_origin H isize kr).map (· + isize)),
      ?_, ocol, orow, hocol, horow, ?_, ?_, hoc1, hoc2, hor1, hor2⟩
    · simp only [tiled_boxes, List.mem_flatMap, List.mem_map, List.mem_range]
      exact ⟨kr, hkr, kc, hkc, rfl⟩
    · rw [hocol]
      rfl
    · rw [horow]
      rfl
  · have hc : tile_count 64 32 = 2 := by apply tile_count_eval <;> norm_num
    have hstr : tile_stride 64 32 = some ((64 - 32 : ℚ) / ((2 : ℚ) - 1)) := by
      rw [tile_stride, hc]
      norm_num
    have ho0 : tile_origin 64 32 0 = some 0 := by
      rw [tile_origin, hstr]
      have h : ⌊((0 : ℕ) : ℚ) * ((64 - 32 : ℚ) / ((2 : ℚ) - 1))⌋ = 0 := by
        apply floor_eval <;> norm_num
      rw [Option.map_some', h]
    have ho1 : tile_origin 64 32 1 = some 32 := by
      rw [tile_origin, hstr]
      have h : ⌊((1 : ℕ) : ℚ) * ((64 - 32 : ℚ) / ((2 : ℚ) - 1))⌋ = 32 := by
        apply floor_eval <;> norm_num
      rw [Option.map_some', h]
    rw [tiled_boxes, hc, show (2 : ℤ).toNat = 2 from rfl]
    norm_num [range_two_eq, ho0, ho1, List.flatMap_cons, List.flatMap_nil]

theorem c5_witness :
    ((0 : ℤ) < 32 ∧ (32 : ℤ) < 64) ∧
    (∃ tl ∈ tiled_boxes 64 64 32, ∃ cx cy : ℤ,
      tl.1 = some cx ∧ tl.2.1 = some cy ∧
      tl.2.2.1 = some (cx + 32) ∧ tl.2.2.2 = some (cy + 32) ∧
      cx ≤ 0 ∧ (0 : ℤ) < cx + 32 ∧ cy ≤ 0 ∧ (0 : ℤ) < cy + 32) ∧
    tiled_boxes 64 64 32 =
      [(some 0, some 0, some 32, some 32), (some 32, some 0, some 64, some 32),
       (some 0, some 32, some 32, some 64), (some 32, some 32, some 64, some 64)] :=
  ⟨⟨by norm_num, by norm_num⟩,
    (c5_tiler_covers_frame 64 64 32 (by norm_num) (by norm_num) (by norm_num)).1
      0 0 le_rfl (by norm_num) le_rfl (by norm_num),
    (c5_tiler_covers_frame 64 64 32 (by norm_num) (by norm_num) (by norm_num)).2⟩

/-- C3 (evaluation of the code at the failing input): with a 32 x 32 frame
and `isize = 32`, `tile_count` is `1` along each axis but `tiled_boxes`
has no special case for `tile_count - 1 == 0`: the stride expression
divides by zero (IEEE: `0 / 0 = nan`, modelled `none`), so the single
tile's origin is the int32 cast of `floor(0 * nan) = nan` — an undefined
value, not the origin `0` the claim describes. -/
theorem c3_tiler_single_tile_undefined :
    tile_count 32 32 = 1 ∧
    tile_stride 32 32 = none ∧
    tile_origin 32 32 0 = none ∧
    tiled_boxes 32 32 32 = [(none, none, none, none)] := by
  have hc : tile_count 32 32 = 1 := by apply tile_count_eval <;> norm_num
  have hstr : tile_stride 32 32 = none := by
    rw [tile_stride, hc]
    norm_num
  have ho : tile_origin 32 32 0 = none := by
    rw [tile_origin, hstr]
    rfl
  refine ⟨hc, hstr, ho, ?_⟩
  rw [tiled_boxes, hc, show (1 : ℤ).toNat = 1 from rfl]
  norm_num [range_one_eq, ho, List.flatMap_cons, List.flatMap_nil]

theorem c9_witness :
    (convert_to_patch_boxes [⟨3, 4, 7, 8⟩] (10, 10) 2).2 = [⟨3, 4, 7, 8⟩].map roundQBox :=
  c9_round_in_place.1 [⟨3, 4, 7, 8⟩] (10, 10) 2

theorem c10_witness :
    ((pseudo_scores.take 5).length = 5 ↔ 5 ≤ 1000) ∧
    (pseudo_scores.take 5).Pairwise (· > ·) :=
  (c10_pseudo_scores_slice.2 5)
